import Mathlib

/-!
Verification development for the client-side list-derivation, filtering and
cleanup logic of the Komal Agencies order-management app.

The embedding models time in a single fixed UTC offset (local time = UTC), so a
calendar date denotes a civil day number and an instant is a day number plus a
millisecond-of-day.  JS `Date` values are represented by their day-granularity
components; `Array` methods are modelled by their ECMA-262 value semantics on
`List`, with in-place mutation (only `Array.prototype.sort` mutates here)
modelled by an explicit post-state function.  String parsing helpers
(`split`, `parseInt`, `trim`, `toLowerCase`, `includes`) are modelled by
structural recursion over the character list so that every definition
evaluates inside the kernel; `parseInt` is modelled on canonical decimal digit
strings (the only shape the app produces for its `DD/MM/YYYY` dates).
-/

/-- Milliseconds per civil day, the unit conversion used by JS `Date`. -/
def msPerDay : Int := 86400000

/-- Civil day number (days since 1970-01-01) of a year/month(1-12)/day triple:
the value ECMA-262 `MakeDay(y, m-1, d)` denotes, computed by the standard
days-from-civil algorithm (divisions mirror C truncating division, which the
algorithm's range adjustments make agree with floor division). -/
def daysFromCivil (y : Int) (m : Int) (d : Int) : Int :=
  let y := if m ≤ 2 then y - 1 else y
  let era := (if 0 ≤ y then y else y - 399).tdiv 400
  let yoe := y - era * 400
  let doy := (153 * (if 2 < m then m - 3 else m + 9) + 2).tdiv 5 + d - 1
  let doe := yoe * 365 + yoe.tdiv 4 - yoe.tdiv 100 + doy
  era * 146097 + doe - 719468

/-- ECMA-262 `MakeDay(y, mIdx, d)` with a 0-based month index and arbitrary
(possibly out-of-range) month and day, normalised exactly as JS
`new Date(y, mIdx, d)` normalises them. -/
def makeDay (y mIdx d : Int) : Int :=
  daysFromCivil (y + mIdx.fdiv 12) (mIdx.emod 12 + 1) 1 + (d - 1)

/-- JS `getDay()` of a civil day number: locale day-of-week, 0 = Sunday
(1970-01-01 was a Thursday, day-of-week 4). -/
def dayOfWeekOf (z : Int) : Int := (z + 4).emod 7

/-- JS `String.prototype.split(sep)` on the character list (structural model
of `s.split('/')`). -/
def splitOnChar (sep : Char) : List Char → List (List Char)
  | [] => [[]]
  | c :: rest =>
    let r := splitOnChar sep rest
    if c = sep then [] :: r
    else match r with
      | [] => [[c]]
      | h :: t => (c :: h) :: t

/-- Decimal digit value of a character, if it is one. -/
def charDigit? (c : Char) : Option Nat :=
  if 48 ≤ c.toNat ∧ c.toNat ≤ 57 then some (c.toNat - 48) else none

/-- JS `parseInt` restricted to canonical non-empty decimal digit strings
(the shape of every day/month/year field the app produces); anything else is
`none`, standing for `NaN`. -/
def parseDigits (cs : List Char) : Option Nat :=
  match cs with
  | [] => none
  | _ => cs.foldl (fun acc c =>
      match acc, charDigit? c with
      | some n, some d => some (n * 10 + d)
      | _, _ => none) (some 0)

/-- JS `toLowerCase` per character (ASCII range, the alphabet the app uses). -/
def jsLowerChar (c : Char) : Char :=
  if 65 ≤ c.toNat ∧ c.toNat ≤ 90 then Char.ofNat (c.toNat + 32) else c

/-- Whether the first character list is a prefix of the second (Bool). -/
def isPrefixList : List Char → List Char → Bool
  | [], _ => true
  | _ :: _, [] => false
  | a :: as, b :: bs => a = b && isPrefixList as bs

/-- JS `String.prototype.includes`: the needle occurs contiguously in the
haystack. -/
def isInfixList (needle : List Char) : List Char → Bool
  | [] => needle.isEmpty
  | c :: rest => isPrefixList needle (c :: rest) || isInfixList needle rest

/-- ASCII whitespace recognised by the model of JS `trim`. -/
def isSpaceChar (c : Char) : Bool := c = ' ' || c = '\t' || c = '\n' || c = '\r'

/-- Drop leading whitespace characters. -/
def trimLeadList : List Char → List Char
  | [] => []
  | c :: r => if isSpaceChar c then trimLeadList r else c :: r

/-- JS `String.prototype.trim` (result as a character list). -/
def jsTrim (s : String) : List Char :=
  (trimLeadList (trimLeadList s.data).reverse).reverse

/-- One line item of an order (src/utils/api.ts `OrderItem`).  The TS union
`'Pc' | 'Outer' | 'Case'` and the optional `productNotes` (always defaulted to
`''` by the screens) are modelled as plain strings. -/
structure OrderItem where
  productId : String
  productName : String
  brandName : String
  unit : String
  quantity : Int
  productNotes : String
deriving DecidableEq, Repr

/-- An order (src/utils/api.ts `Order`).  `date` is the `DD/MM/YYYY` display
string; `time` is the millisecond-of-day the optional time string denotes
(the screens never inspect it except inside the dashboard's combined
`date + ' ' + time` sort key, so it is carried already parsed); `status` is
the TS string union `'Pending' | 'Completed'`.  `items`, `createdAt` and
`updatedAt` are never read by the logic modelled here and are omitted. -/
structure Order where
  _id : String
  counterName : String
  bit : String
  totalItems : Int
  totalAmount : Int
  date : String
  time : Int
  status : String
  orderNumber : String
deriving DecidableEq, Repr

/-- A retailer (src/utils/api.ts `Retailer`). -/
structure Retailer where
  _id : String
  name : String
  phone : String
  bit : String
deriving DecidableEq, Repr

/-- A product (src/utils/api.ts `Product`). -/
structure Product where
  _id : String
  name : String
  brandId : String
  brandName : String
deriving DecidableEq, Repr

/-- `order.date.split('/')` followed by
`new Date(parseInt(year), parseInt(month) - 1, parseInt(day))`
(orders.tsx `getOldCompletedOrders`, also edit-order.tsx): the civil day
number the resulting `Date` lies on, `none` when a field fails to parse (the
JS value is then an Invalid Date, whose comparisons are all false).  Extra
`/`-separated fields beyond the first three are ignored, as in the source's
destructuring. -/
def parseDMY (s : String) : Option Int :=
  match (splitOnChar '/' s.data).map parseDigits with
  | some d :: some m :: some y :: _ => some (makeDay (y : Int) ((m : Int) - 1) (d : Int))
  | _ => none

/-- `new Date(order.date.split('/').reverse().join('-'))` (orders.tsx
`filteredOrders` date branch): the `DD/MM/YYYY` string is rebuilt as
`YYYY-MM-DD` and parsed by the `Date` string parser, which requires in-range
month and day and yields midnight of that civil day (UTC midnight; equal to
local midnight in this zero-offset model).  Out-of-range or non-numeric
fields yield an Invalid Date, modelled as `none`. -/
def parseDateRev (s : String) : Option Int :=
  match ((splitOnChar '/' s.data).reverse).map parseDigits with
  | [some y, some m, some d] =>
    if 1 ≤ m ∧ m ≤ 12 ∧ 1 ≤ d ∧ d ≤ 31 then
      some (makeDay (y : Int) ((m : Int) - 1) (d : Int))
    else none
  | _ => none

/-- An instant (`new Date()`): the civil day number it falls on plus its
millisecond-of-day (`0 ≤ tod < msPerDay` for a real clock reading). -/
structure Instant where
  day : Int
  tod : Int
deriving DecidableEq, Repr

/-- The filter body of `getOldCompletedOrders` (orders.tsx:389-403).
`thirtyOneDaysAgo` is `new Date(today)` with `setDate(getDate() - 31)`,
i.e. the same clock time 31 civil days earlier; the order's parsed date is
midnight, and Invalid Dates compare false. -/
def oldCompletedPred (today : Instant) (o : Order) : Bool :=
  if o.status != "Completed" then false
  else match parseDMY o.date with
    | some z => decide (z * msPerDay ≤ (today.day - 31) * msPerDay + today.tod)
    | none => false

/-- `getOldCompletedOrders` (orders.tsx:389-403): the completed orders whose
parsed `DD/MM/YYYY` date is at most 31 days before `today`. -/
def getOldCompletedOrders (today : Instant) (allOrders : List Order) : List Order :=
  allOrders.filter (oldCompletedPred today)

/-- The evaluation time of the orders screen's memoised `dateFilterFunctions`
(orders.tsx:182-194): the current civil year, month (1-12), day of month, and
millisecond-of-day. -/
structure LocalNow where
  year : Int
  month : Int
  day : Int
  tod : Int
deriving DecidableEq, Repr

/-- The civil day number of `now` (`new Date()`'s date components). -/
def todayDayNum (now : LocalNow) : Int := makeDay now.year (now.month - 1) now.day

/-- `startOfToday = new Date(getFullYear(), getMonth(), getDate())`
(orders.tsx:184): midnight of the current day, in ms. -/
def startOfTodayMs (now : LocalNow) : Int := todayDayNum now * msPerDay

/-- `today.getDay()` at `now`. -/
def nowDayOfWeek (now : LocalNow) : Int := dayOfWeekOf (todayDayNum now)

/-- `startOfWeek = new Date(today); startOfWeek.setDate(getDate() - getDay())`
(orders.tsx:185-186): the current week's day-0 day, but — since `setDate`
preserves the clock time of the copied `Date` — still carrying the current
millisecond-of-day. -/
def startOfWeekMs (now : LocalNow) : Int :=
  (todayDayNum now - nowDayOfWeek now) * msPerDay + now.tod

/-- `startOfMonth = new Date(getFullYear(), getMonth(), 1)` (orders.tsx:187):
midnight of the first day of the current month, in ms. -/
def startOfMonthMs (now : LocalNow) : Int :=
  makeDay now.year (now.month - 1) 1 * msPerDay

/-- The date-bucket predicate applied inside `filteredOrders`
(orders.tsx:260-275): the order's date string is parsed via
`split('/').reverse().join('-')`, then compared with `dateFilterFunctions`'
thresholds according to the selected bucket; any other bucket value falls to
the switch's `default: return true`.  An unparseable date compares false. -/
def dateFilterPred (now : LocalNow) (dateFilter : String) (o : Order) : Bool :=
  if dateFilter == "today" then
    match parseDateRev o.date with
    | some z => decide (startOfTodayMs now ≤ z * msPerDay)
    | none => false
  else if dateFilter == "week" then
    match parseDateRev o.date with
    | some z => decide (startOfWeekMs now ≤ z * msPerDay)
    | none => false
  else if dateFilter == "month" then
    match parseDateRev o.date with
    | some z => decide (startOfMonthMs now ≤ z * msPerDay)
    | none => false
  else true

/-- One conditional filtering step of the `filteredOrders` pipeline:
`if (cond) { filtered = filtered.filter(p) }`. -/
def stageIf (cond : Bool) (p : Order → Bool) (l : List Order) : List Order :=
  if cond then l.filter p else l

/-- `if (bitsFilter !== 'all') filtered = filtered.filter(o => o.bit === bitsFilter)`
(orders.tsx:250-252). -/
def bitsStage (bitsFilter : String) (l : List Order) : List Order :=
  stageIf (bitsFilter != "all") (fun o => o.bit == bitsFilter) l

/-- `if (statusFilter !== 'all') filtered = filtered.filter(o => o.status === statusFilter)`
(orders.tsx:255-257). -/
def statusStage (statusFilter : String) (l : List Order) : List Order :=
  stageIf (statusFilter != "all") (fun o => o.status == statusFilter) l

/-- `if (dateFilter !== 'all') filtered = filtered.filter(dateFilterPred)`
(orders.tsx:260-275). -/
def dateStage (now : LocalNow) (dateFilter : String) (l : List Order) : List Order :=
  stageIf (dateFilter != "all") (dateFilterPred now dateFilter) l

/-- Case-insensitive substring match of the search query against the counter
name (orders.tsx:279-281). -/
def searchMatches (o : Order) (q : String) : Bool :=
  isInfixList (q.data.map jsLowerChar) (o.counterName.data.map jsLowerChar)

/-- `if (debouncedSearchQuery.trim()) filtered = filtered.filter(...)`
(orders.tsx:278-282); the untrimmed query is what gets matched. -/
def searchStage (q : String) (l : List Order) : List Order :=
  stageIf (!(jsTrim q).isEmpty) (fun o => searchMatches o q) l

/-- The `filteredOrders` memo (orders.tsx:246-285): bits, status, date-bucket
and debounced-search filters applied in sequence, each skipped on its own
"all"/empty sentinel. -/
def filteredOrders (now : LocalNow) (orders : List Order)
    (bitsFilter statusFilter dateFilter debouncedSearchQuery : String) : List Order :=
  searchStage debouncedSearchQuery
    (dateStage now dateFilter
      (statusStage statusFilter
        (bitsStage bitsFilter orders)))

/-- An observable effect of the cleanup routine: a network request or a
user-facing alert, in program order. -/
inductive Eff where
  | apiGetAllOrders (bit status : Option String)
  | apiDeleteOldCompleted (orderIds : List String)
  | alertShown (title : String)
deriving DecidableEq, Repr

/-- Whether an effect is the bulk-delete request. -/
def isDeleteReq : Eff → Bool
  | .apiDeleteOldCompleted _ => true
  | _ => false

/-- `loadOrders()` with no custom filters (orders.tsx:223-238): a
`GET /orders` with the committed bits/status filters mapped to query
parameters, `'all'` mapping to absent. -/
def loadOrdersReq (bitsFilter statusFilter : String) : Eff :=
  .apiGetAllOrders (if bitsFilter == "all" then none else some bitsFilter)
    (if statusFilter == "all" then none else some statusFilter)

/-- The effect trace of `handleCleanupOldOrders` (orders.tsx:406-451) on a
successful network path: a fresh unfiltered `GET /orders`, then — depending
on the eligible set and the user's choice in the confirmation alert — either
the "No Old Orders" report, or the confirmation prompt followed (on Delete)
by one bulk `deleteOldCompleted` request carrying every eligible id, the
list reload, and the success alert.

The `api.orders.deleteOldCompleted` function itself is Modelled from the
spec: it is invoked by orders.tsx:433 but absent from `orderAPI` in
src/utils/api.ts; per the spec's interface table it is the bulk
"delete-old-completed" endpoint taking a batch id array, modelled here as
the single request `Eff.apiDeleteOldCompleted ids`. -/
def handleCleanupOldOrders (today : Instant) (allOrders : List Order)
    (confirmDelete : Bool) (bitsFilter statusFilter : String) : List Eff :=
  let oldOrders := getOldCompletedOrders today allOrders
  if oldOrders.length == 0 then
    [.apiGetAllOrders none none, .alertShown "No Old Orders"]
  else
    .apiGetAllOrders none none :: .alertShown "Delete Old Orders" ::
      (if confirmDelete then
        [.apiDeleteOldCompleted (oldOrders.map Order._id),
         loadOrdersReq bitsFilter statusFilter,
         .alertShown "Success"]
      else [])

/-- The filter-related state of the orders screen (orders.tsx:136-146):
committed filters (driving the list), staged copies (driving the modal), and
the modal's visibility. -/
structure FilterState where
  statusFilter : String
  dateFilter : String
  bitsFilter : String
  tempStatusFilter : String
  tempDateFilter : String
  tempBitsFilter : String
  isModalVisible : Bool
deriving DecidableEq, Repr

/-- The filter-modal operations of the orders screen. -/
inductive FilterEvent where
  | openFilterModal
  | setTempStatusFilter (v : String)
  | setTempDateFilter (v : String)
  | setTempBitsFilter (v : String)
  | clearAllFilters
  | dismissModal
  | applyFilters
deriving DecidableEq, Repr

/-- One filter-modal event handler (orders.tsx:363-386 and the modal's
backdrop/close/option handlers): opening snapshots committed into staged;
staged edits and Clear All touch only staged; dismissing only hides the
modal; Apply copies staged into committed and hides the modal. -/
def stepFilter (s : FilterState) : FilterEvent → FilterState
  | .openFilterModal =>
    { s with tempStatusFilter := s.statusFilter, tempDateFilter := s.dateFilter,
             tempBitsFilter := s.bitsFilter, isModalVisible := true }
  | .setTempStatusFilter v => { s with tempStatusFilter := v }
  | .setTempDateFilter v => { s with tempDateFilter := v }
  | .setTempBitsFilter v => { s with tempBitsFilter := v }
  | .clearAllFilters =>
    { s with tempStatusFilter := "all", tempDateFilter := "all", tempBitsFilter := "all" }
  | .dismissModal => { s with isModalVisible := false }
  | .applyFilters =>
    { s with statusFilter := s.tempStatusFilter, dateFilter := s.tempDateFilter,
             bitsFilter := s.tempBitsFilter, isModalVisible := false }

/-- Run a sequence of filter-modal events. -/
def runFilter (s : FilterState) (evs : List FilterEvent) : FilterState :=
  evs.foldl stepFilter s

/-- The committed filter triple (status, date, bits). -/
def committedOf (s : FilterState) : String × String × String :=
  (s.statusFilter, s.dateFilter, s.bitsFilter)

/-- The staged filter triple (status, date, bits). -/
def stagedOf (s : FilterState) : String × String × String :=
  (s.tempStatusFilter, s.tempDateFilter, s.tempBitsFilter)

/-- The screen's initial filter state (orders.tsx:136-146): each committed
dimension starts at the incoming navigation parameter or `'all'`, staged
copies start at `'all'`, modal closed. -/
def initialFilterState (incomingStatus incomingDate incomingBits : Option String) : FilterState :=
  { statusFilter := incomingStatus.getD "all", dateFilter := incomingDate.getD "all",
    bitsFilter := incomingBits.getD "all",
    tempStatusFilter := "all", tempDateFilter := "all", tempBitsFilter := "all",
    isModalVisible := false }

/-- JS `Array.prototype.findIndex`, with `-1` modelled as `none`. -/
def findIndex (p : α → Bool) : List α → Option Nat
  | [] => none
  | x :: xs => if p x then some 0 else (findIndex p xs).map (· + 1)

/-- Replace the element at an index (the source's write through a shallow
copy: `updatedItems[i].quantity = ...`). -/
def updateAt (i : Nat) (f : α → α) : List α → List α
  | [] => []
  | x :: xs =>
    match i with
    | 0 => f x :: xs
    | i + 1 => x :: updateAt i f xs

/-- `handleAddToOrder` (new-order.tsx:104-129 and edit-order.tsx:86-111,
identical logic): if an item with the same `(productId, unit)` pair exists,
overwrite its quantity and notes in place; otherwise append a new item built
from the product and the selected brand's name. -/
def handleAddToOrder (productId productName brandName unit : String)
    (quantity : Int) (productNotes : String) (prevItems : List OrderItem) : List OrderItem :=
  match findIndex (fun item => item.productId == productId && item.unit == unit) prevItems with
  | some i =>
    updateAt i (fun item => { item with quantity := quantity, productNotes := productNotes }) prevItems
  | none =>
    prevItems ++ [{ productId := productId, productName := productName, brandName := brandName,
                    unit := unit, quantity := quantity, productNotes := productNotes }]

/-- The de-facto uniqueness key of an item within one order. -/
def itemKey (it : OrderItem) : String × String := (it.productId, it.unit)

/-- `handleUpdateQuantity` (edit-order.tsx:113-125): clamp the matching
item's quantity at `Math.max(0, newQuantity)`, then drop every item whose
quantity is not positive. -/
def handleUpdateQuantity (productId unit : String) (newQuantity : Int)
    (prevItems : List OrderItem) : List OrderItem :=
  (prevItems.map (fun item =>
    if item.productId == productId && item.unit == unit then
      { item with quantity := max 0 newQuantity }
    else item)).filter (fun item => decide (0 < item.quantity))

/-- `getTotalItems` (edit-order.tsx:144-146, new-order.tsx:131-133):
`reduce((total, item) => total + item.quantity, 0)`. -/
def getTotalItems (orderItems : List OrderItem) : Int :=
  orderItems.foldl (fun total item => total + item.quantity) 0

/-- The `items` and `totalItems` fields of the `PUT /orders/:id` body built
by `handleSaveOrder` (edit-order.tsx:148-169): the current item list as-is
and its recomputed quantity total. -/
def handleSaveOrderPayload (orderItems : List OrderItem) : List OrderItem × Int :=
  (orderItems, orderItems.foldl (fun total item => total + item.quantity) 0)

/-- The dashboard sort key of an order: the instant denoted by
`new Date(order.date + ' ' + order.time)` (index.tsx:72), read — as the spec
fixes the convention — as the `DD/MM/YYYY` day combined with the
time-of-day; `none` (an Invalid Date, `NaN` key) when the date does not
parse. -/
def orderSortKey (o : Order) : Option Int :=
  (parseDMY o.date).map (fun z => z * msPerDay + o.time)

/-- The stable-sort ordering induced by the dashboard comparator
`(a, b) => keyOf(b) - keyOf(a)` (index.tsx:72): `a` may stay before `b` when
the comparator is ≤ 0, and a `NaN` comparator result is treated as 0 (ECMA
`SortCompare`), letting either order stand. -/
def recentLe (a b : Order) : Bool :=
  match orderSortKey a, orderSortKey b with
  | some ka, some kb => decide (kb ≤ ka)
  | _, _ => true

/-- Stable insertion of an element into a list ordered by `le`. -/
def insertOrd (le : α → α → Bool) (x : α) : List α → List α
  | [] => [x]
  | y :: ys => if le x y then x :: y :: ys else y :: insertOrd le x ys

/-- Stable sort by `le` (insertion sort).  ECMA-262 requires
`Array.prototype.sort` to be stable, and a consistent comparator determines
the stable sorted permutation uniquely, so this models the engine's sort. -/
def sortOrd (le : α → α → Bool) : List α → List α
  | [] => []
  | x :: xs => insertOrd le x (sortOrd le xs)

/-- `recentOrders` (index.tsx:70-73): the value rendered —
`orders.sort(byCombinedDateTimeDesc).slice(0, 3)`. -/
def recentOrders (orders : List Order) : List Order :=
  (sortOrd recentLe orders).take 3

/-- The contents of the dashboard's `orders` state array after `recentOrders`
is computed: `Array.prototype.sort` sorts its receiver in place and returns
it, so the source array is left in key-descending order. -/
def ordersAfterRecent (orders : List Order) : List Order :=
  sortOrd recentLe orders

/-- The contents of the orders screen's `orders` state array after
`filteredOrders` is computed: `Array.prototype.filter` allocates a fresh
array and never mutates its receiver. -/
def ordersAfterFiltered (orders : List Order) : List Order := orders

/-- The dashboard sort key with `NaN` defaulted, for stating sortedness (the
dashboard theorems only use it on orders whose key is `some`). -/
def orderSortKeyD (o : Order) : Int := (orderSortKey o).getD 0

/-- `filteredRetailers` (retailers.tsx:84-85): the server response is used
directly — no client-side filtering. -/
def filteredRetailers (retailers : List Retailer) : List Retailer := retailers

/-- `filteredProducts` (items.tsx:123-124): the server response is used
directly — no client-side filtering. -/
def filteredProducts (products : List Product) : List Product := products

/-- JS truthiness of an optional string (`undefined` and `''` are falsy). -/
def strTruthy : Option String → Bool
  | none => false
  | some s => s != ""

/-- The query parameters built by `retailerAPI.getAll` (api.ts:281-288):
`bit` when given and not `'all'`, `search` when given and non-empty. -/
def retailerGetAllParams (bit search : Option String) : List (String × String) :=
  (if strTruthy bit && (bit != some "all") then [("bit", bit.getD "")] else []) ++
  (if strTruthy search then [("search", search.getD "")] else [])

/-- The query parameters built by `productAPI.getAll` (api.ts:95-102). -/
def productGetAllParams (brand search : Option String) : List (String × String) :=
  (if strTruthy brand && (brand != some "all") then [("brand", brand.getD "")] else []) ++
  (if strTruthy search then [("search", search.getD "")] else [])

/-- The arguments the items screen passes to `productAPI.getAll`
(items.tsx:25): `'all'` maps to no brand parameter, an empty search to no
search parameter. -/
def itemsScreenFetchArgs (selectedBrand searchQuery : String) : Option String × Option String :=
  ((if selectedBrand == "all" then none else some selectedBrand),
   (if searchQuery == "" then none else some searchQuery))

/-- A completed order dated 1 January 2025, used to instantiate theorems. -/
def oCompletedJan1 : Order :=
  { _id := "ord-1", counterName := "Alpha Stores", bit := "Andur", totalItems := 2,
    totalAmount := 150, date := "01/01/2025", time := 36000000, status := "Completed",
    orderNumber := "ORD-001" }

/-- A pending order dated 2 January 2024, used to instantiate theorems. -/
def oPendingJan2 : Order :=
  { _id := "ord-2", counterName := "Beta Traders", bit := "Omerga", totalItems := 1,
    totalAmount := 60, date := "02/01/2024", time := 0, status := "Pending",
    orderNumber := "ORD-002" }

/-- A completed order dated 3 January 2024, used to instantiate theorems. -/
def oCompletedJan3 : Order :=
  { _id := "ord-3", counterName := "Gamma Agencies", bit := "Turori", totalItems := 4,
    totalAmount := 300, date := "03/01/2024", time := 3600000, status := "Completed",
    orderNumber := "ORD-003" }

/-- A pending order dated 5 January 2025 (a Sunday), used to instantiate
theorems. -/
def oSundayJan5 : Order :=
  { _id := "ord-4", counterName := "Delta Mart", bit := "Andur", totalItems := 3,
    totalAmount := 210, date := "05/01/2025", time := 0, status := "Pending",
    orderNumber := "ORD-004" }

/-- Noon on 1 February 2025, an instant 31 days after `oCompletedJan1`'s
date, used to instantiate theorems. -/
def wFebInstant : Instant := { day := daysFromCivil 2025 2 1, tod := 43200000 }

/-- Wednesday 8 January 2025 at 01:00, used to instantiate theorems. -/
def wJanNow : LocalNow := { year := 2025, month := 1, day := 8, tod := 3600000 }

/-- The item list of the spec's total-recomputation example: quantities
2, 3 and 0. -/
def exampleItems : List OrderItem :=
  [{ productId := "P1", productName := "Glucose Biscuits", brandName := "B1",
     unit := "Pc", quantity := 2, productNotes := "" },
   { productId := "P2", productName := "Bath Soap", brandName := "B2",
     unit := "Outer", quantity := 3, productNotes := "" },
   { productId := "P3", productName := "Cooking Oil", brandName := "B3",
     unit := "Case", quantity := 0, productNotes := "" }]

/-! ### Helper lemmas -/

lemma day_le_of_ms_le {z t tod : Int} (h0 : 0 ≤ tod) (h1 : tod < msPerDay) :
    z * msPerDay ≤ t * msPerDay + tod ↔ z ≤ t := by
  unfold msPerDay at *
  omega

lemma oldCompletedPred_iff (today : Instant) (o : Order)
    (h0 : 0 ≤ today.tod) (h1 : today.tod < msPerDay) :
    oldCompletedPred today o = true ↔
      o.status = "Completed" ∧ ∃ z, parseDMY o.date = some z ∧ z ≤ today.day - 31 := by
  unfold oldCompletedPred
  by_cases hs : o.status = "Completed"
  · rw [if_neg (by simp [hs])]
    cases hp : parseDMY o.date with
    | none => simp [hs]
    | some z => simp [hs, day_le_of_ms_le h0 h1]
  · rw [if_pos (by simp [hs])]
    simp [hs]

/-! ### Claim theorems -/

/-- Claim C1: `getOldCompletedOrders` selects an order iff its status is
Completed and its parsed `DD/MM/YYYY` date lies at or before today minus 31
days; an order dated exactly 31 days back and Completed is selected, one
dated 30 days back is not, and a Pending order never is. -/
theorem c1_cleanup_eligibility (today : Instant)
    (h0 : 0 ≤ today.tod) (h1 : today.tod < msPerDay) (orders : List Order) :
    (∀ o ∈ orders, o ∈ getOldCompletedOrders today orders ↔
      o.status = "Completed" ∧ ∃ z, parseDMY o.date = some z ∧ z ≤ today.day - 31)
    ∧ (∀ o ∈ orders, o.status = "Completed" → parseDMY o.date = some (today.day - 31) →
        o ∈ getOldCompletedOrders today orders)
    ∧ (∀ o ∈ orders, parseDMY o.date = some (today.day - 30) →
        o ∉ getOldCompletedOrders today orders)
    ∧ (∀ o ∈ orders, o.status = "Pending" → o ∉ getOldCompletedOrders today orders) := by
  have hmem : ∀ o ∈ orders, o ∈ getOldCompletedOrders today orders ↔
      o.status = "Completed" ∧ ∃ z, parseDMY o.date = some z ∧ z ≤ today.day - 31 := by
    intro o ho
    rw [getOldCompletedOrders, List.mem_filter,
      oldCompletedPred_iff today o h0 h1]
    simp [ho]
  refine ⟨hmem, ?_, ?_, ?_⟩
  · intro o ho hs hp
    exact (hmem o ho).2 ⟨hs, today.day - 31, hp, le_refl _⟩
  · intro o ho hp hin
    rcases ((hmem o ho).1 hin).2 with ⟨z, hz, hle⟩
    rw [hp] at hz
    cases hz
    omega
  · intro o ho hs hin
    have := ((hmem o ho).1 hin).1
    rw [hs] at this
    simp at this

/-- Witness for C1: the completed order dated 1 January 2025 is selected at
noon on 1 February 2025 (exactly 31 days later). -/
theorem c1_cleanup_eligibility_witness :
    oCompletedJan1 ∈ getOldCompletedOrders wFebInstant [oCompletedJan1] :=
  (c1_cleanup_eligibility wFebInstant (by decide) (by decide) [oCompletedJan1]).2.1
    oCompletedJan1 (by simp) rfl (by decide)

/-- Claim C2: on a fresh unfiltered fetch, the cleanup routine issues no
delete and only reports when nothing is eligible; with eligible orders and a
confirmed prompt it issues exactly one batch delete carrying every eligible
id, and reloads only after it. -/
theorem c2_cleanup_single_batch (today : Instant) (allOrders : List Order)
    (confirmDelete : Bool) (b s : String) :
    (getOldCompletedOrders today allOrders = [] →
      handleCleanupOldOrders today allOrders confirmDelete b s =
        [.apiGetAllOrders none none, .alertShown "No Old Orders"])
    ∧ (getOldCompletedOrders today allOrders ≠ [] →
      handleCleanupOldOrders today allOrders true b s =
        [.apiGetAllOrders none none, .alertShown "Delete Old Orders",
         .apiDeleteOldCompleted ((getOldCompletedOrders today allOrders).map Order._id),
         loadOrdersReq b s, .alertShown "Success"])
    ∧ (∀ ids, Eff.apiDeleteOldCompleted ids ∈
          handleCleanupOldOrders today allOrders confirmDelete b s →
        ids = (getOldCompletedOrders today allOrders).map Order._id ∧
        getOldCompletedOrders today allOrders ≠ [] ∧ confirmDelete = true)
    ∧ (handleCleanupOldOrders today allOrders confirmDelete b s).countP isDeleteReq ≤ 1 := by
  by_cases hemp : getOldCompletedOrders today allOrders = []
  · refine ⟨fun _ => ?_, fun hne => absurd hemp hne, ?_, ?_⟩
    · simp [handleCleanupOldOrders, hemp]
    · intro ids hmem
      simp [handleCleanupOldOrders, hemp] at hmem
    · simp [handleCleanupOldOrders, hemp, isDeleteReq]
  · refine ⟨fun he => absurd he hemp, fun _ => ?_, ?_, ?_⟩
    · simp [handleCleanupOldOrders, List.length_eq_zero, hemp]
    · intro ids hmem
      cases confirmDelete with
      | false =>
        simp [handleCleanupOldOrders, List.length_eq_zero, hemp] at hmem
      | true =>
        simp [handleCleanupOldOrders, List.length_eq_zero, hemp, loadOrdersReq] at hmem
        exact ⟨hmem, hemp, rfl⟩
    · cases confirmDelete with
      | false =>
        simp [handleCleanupOldOrders, List.length_eq_zero, hemp, List.countP_cons, isDeleteReq]
      | true =>
        simp [handleCleanupOldOrders, List.length_eq_zero, hemp, List.countP_cons,
          isDeleteReq, loadOrdersReq]

/-- Witness for C2: the one eligible order's id is deleted in a single batch
request, followed by the reload and the success alert. -/
theorem c2_cleanup_single_batch_witness :
    handleCleanupOldOrders wFebInstant [oCompletedJan1] true "all" "all" =
      [.apiGetAllOrders none none, .alertShown "Delete Old Orders",
       .apiDeleteOldCompleted ((getOldCompletedOrders wFebInstant [oCompletedJan1]).map Order._id),
       loadOrdersReq "all" "all", .alertShown "Success"] :=
  (c2_cleanup_single_batch wFebInstant [oCompletedJan1] true "all" "all").2.1 (by decide)

/-- Claim C5: committed filter state equals the staged values at the most
recent Apply (or the initial value when Apply never ran); staged edits,
Clear All and dismissal never change committed state. -/
theorem c5_staged_filter_isolation :
    (∀ s e, e ≠ FilterEvent.applyFilters → committedOf (stepFilter s e) = committedOf s)
    ∧ (∀ s, committedOf (stepFilter s FilterEvent.applyFilters) = stagedOf s)
    ∧ (∀ s evs, (∀ e ∈ evs, e ≠ FilterEvent.applyFilters) →
        committedOf (runFilter s evs) = committedOf s)
    ∧ (∀ s evs₁ evs₂, (∀ e ∈ evs₂, e ≠ FilterEvent.applyFilters) →
        committedOf (runFilter s (evs₁ ++ FilterEvent.applyFilters :: evs₂)) =
          stagedOf (runFilter s evs₁)) := by
  have h1 : ∀ s e, e ≠ FilterEvent.applyFilters →
      committedOf (stepFilter s e) = committedOf s := by
    intro s e he
    cases e with
    | applyFilters => exact absurd rfl he
    | _ => rfl
  have h2 : ∀ s, committedOf (stepFilter s FilterEvent.applyFilters) = stagedOf s :=
    fun _ => rfl
  have h3 : ∀ evs (s : FilterState), (∀ e ∈ evs, e ≠ FilterEvent.applyFilters) →
      committedOf (runFilter s evs) = committedOf s := by
    intro evs
    induction evs with
    | nil => intro s _; rfl
    | cons e rest ih =>
      intro s hall
      have : runFilter s (e :: rest) = runFilter (stepFilter s e) rest := rfl
      rw [this, ih (stepFilter s e) (fun x hx => hall x (List.mem_cons_of_mem e hx)),
        h1 s e (hall e (List.mem_cons_self e rest))]
  refine ⟨h1, h2, fun s evs => h3 evs s, ?_⟩
  intro s evs₁ evs₂ hall
  have hsplit : runFilter s (evs₁ ++ FilterEvent.applyFilters :: evs₂) =
      runFilter (stepFilter (runFilter s evs₁) FilterEvent.applyFilters) evs₂ := by
    unfold runFilter
    rw [List.foldl_append, List.foldl_cons]
  rw [hsplit, h3 evs₂ _ hall, h2]

/-- Witness for C5: after open, a staged edit, Apply, Clear All and a
dismissal, the committed triple equals the staged triple at the Apply. -/
theorem c5_staged_filter_isolation_witness :
    committedOf (runFilter (initialFilterState none none none)
        ([FilterEvent.openFilterModal, FilterEvent.setTempStatusFilter "Pending"] ++
          FilterEvent.applyFilters ::
            [FilterEvent.clearAllFilters, FilterEvent.dismissModal])) =
      stagedOf (runFilter (initialFilterState none none none)
        [FilterEvent.openFilterModal, FilterEvent.setTempStatusFilter "Pending"]) :=
  c5_staged_filter_isolation.2.2.2 (initialFilterState none none none)
    [FilterEvent.openFilterModal, FilterEvent.setTempStatusFilter "Pending"]
    [FilterEvent.clearAllFilters, FilterEvent.dismissModal] (by decide)

lemma foldl_add_quantity (l : List OrderItem) (a : Int) :
    l.foldl (fun total item => total + item.quantity) a =
      a + (l.map OrderItem.quantity).sum := by
  induction l generalizing a with
  | nil => simp
  | cons x xs ih => simp [ih]; ring

/-- Claim C8: the recomputed total equals the sum of quantities (2, 3, 0
give 5); setting a quantity to 0 through the quantity controls removes the
item, so lists produced that way reach the save payload with no
zero-quantity item. -/
theorem c8_total_and_zero_quantity (productId unit : String) (n : Int)
    (prev : List OrderItem) :
    getTotalItems prev = (prev.map OrderItem.quantity).sum
    ∧ getTotalItems exampleItems = 5
    ∧ (∀ it ∈ handleUpdateQuantity productId unit n prev, 0 < it.quantity)
    ∧ (n ≤ 0 → ∀ it ∈ handleUpdateQuantity productId unit n prev,
        ¬(it.productId = productId ∧ it.unit = unit))
    ∧ handleSaveOrderPayload (handleUpdateQuantity productId unit n prev) =
        (handleUpdateQuantity productId unit n prev,
         getTotalItems (handleUpdateQuantity productId unit n prev))
    ∧ (∀ it ∈ (handleSaveOrderPayload (handleUpdateQuantity productId unit n prev)).1,
        0 < it.quantity) := by
  have hpos : ∀ it ∈ handleUpdateQuantity productId unit n prev, 0 < it.quantity := by
    intro it hit
    unfold handleUpdateQuantity at hit
    rw [List.mem_filter] at hit
    exact of_decide_eq_true hit.2
  refine ⟨?_, by decide, hpos, ?_, rfl, hpos⟩
  · unfold getTotalItems
    rw [foldl_add_quantity]
    ring
  · intro hn it hit hmatch
    have hq := hpos it hit
    unfold handleUpdateQuantity at hit
    rw [List.mem_filter, List.mem_map] at hit
    rcases hit.1 with ⟨x, hx, hfx⟩
    by_cases hcond : (x.productId == productId && x.unit == unit) = true
    · rw [if_pos hcond] at hfx
      rw [← hfx] at hq
      simp at hq
      omega
    · rw [if_neg hcond] at hfx
      rw [← hfx] at hmatch
      simp [hmatch.1, hmatch.2] at hcond

/-- Witness for C8: the spec's example items with quantities 2, 3 and 0
total 5. -/
theorem c8_total_and_zero_quantity_witness : getTotalItems exampleItems = 5 :=
  (c8_total_and_zero_quantity "P1" "Pc" 0 []).2.1

/-- Claim C10: the retailers and products list screens render the server
response unchanged; bit/brand/search filtering is delegated to the query
parameters the API layer builds. -/
theorem c10_server_side_filtering (b s : String) (hb : b ≠ "" ∧ b ≠ "all") (hs : s ≠ "") :
    (∀ retailers : List Retailer, filteredRetailers retailers = retailers)
    ∧ (∀ products : List Product, filteredProducts products = products)
    ∧ retailerGetAllParams (some b) (some s) = [("bit", b), ("search", s)]
    ∧ productGetAllParams (some b) (some s) = [("brand", b), ("search", s)]
    ∧ retailerGetAllParams none none = []
    ∧ productGetAllParams (some "all") none = []
    ∧ itemsScreenFetchArgs "all" "" = (none, none)
    ∧ itemsScreenFetchArgs b s = (some b, some s) := by
  refine ⟨fun _ => rfl, fun _ => rfl, ?_, ?_, rfl, by decide, by decide, ?_⟩
  · simp [retailerGetAllParams, strTruthy, hb.1, hb.2, hs]
  · simp [productGetAllParams, strTruthy, hb.1, hb.2, hs]
  · simp [itemsScreenFetchArgs, hb.2, hs]

/-- Witness for C10: a concrete bit and search query are forwarded as the
two query parameters. -/
theorem c10_server_side_filtering_witness :
    retailerGetAllParams (some "Turori") (some "milk") =
      [("bit", "Turori"), ("search", "milk")] :=
  (c10_server_side_filtering "Turori" "milk" (by decide) (by decide)).2.2.1

lemma stageIf_sublist (c : Bool) (p : Order → Bool) (l : List Order) :
    (stageIf c p l).Sublist l := by
  unfold stageIf
  split
  · exact List.filter_sublist l
  · exact List.Sublist.refl l

lemma stageIf_mono (c : Bool) (p : Order → Bool) {l l' : List Order}
    (h : l.Sublist l') : (stageIf c p l).Sublist (stageIf c p l') := by
  unfold stageIf
  split
  · exact h.filter p
  · exact h

lemma bitsStage_sublist (b : String) (l : List Order) : (bitsStage b l).Sublist l :=
  stageIf_sublist _ _ _

lemma statusStage_sublist (s : String) (l : List Order) : (statusStage s l).Sublist l :=
  stageIf_sublist _ _ _

lemma dateStage_sublist (now : LocalNow) (d : String) (l : List Order) :
    (dateStage now d l).Sublist l :=
  stageIf_sublist _ _ _

lemma searchStage_sublist (q : String) (l : List Order) : (searchStage q l).Sublist l :=
  stageIf_sublist _ _ _

lemma statusStage_mono (s : String) {l l' : List Order} (h : l.Sublist l') :
    (statusStage s l).Sublist (statusStage s l') :=
  stageIf_mono _ _ h

lemma dateStage_mono (now : LocalNow) (d : String) {l l' : List Order} (h : l.Sublist l') :
    (dateStage now d l).Sublist (dateStage now d l') :=
  stageIf_mono _ _ h

lemma searchStage_mono (q : String) {l l' : List Order} (h : l.Sublist l') :
    (searchStage q l).Sublist (searchStage q l') :=
  stageIf_mono _ _ h

lemma bitsStage_all (l : List Order) : bitsStage "all" l = l := rfl

lemma statusStage_all (l : List Order) : statusStage "all" l = l := rfl

lemma dateStage_all (now : LocalNow) (l : List Order) : dateStage now "all" l = l := rfl

lemma searchStage_empty (l : List Order) : searchStage "" l = l := rfl

/-- Claim C3: the orders list derivation is a conjunction of independent
filters — the fully filtered list is a subset of each single-dimension
filtering, and every dimension's "all"/empty sentinel passes every order. -/
theorem c3_filter_conjunction (now : LocalNow) (orders : List Order) (b s d q : String) :
    filteredOrders now orders b s d q ⊆ filteredOrders now orders b "all" "all" ""
    ∧ filteredOrders now orders b s d q ⊆ filteredOrders now orders "all" s "all" ""
    ∧ filteredOrders now orders b s d q ⊆ filteredOrders now orders "all" "all" d ""
    ∧ filteredOrders now orders b s d q ⊆ filteredOrders now orders "all" "all" "all" q
    ∧ (∀ l, bitsStage "all" l = l)
    ∧ (∀ l, statusStage "all" l = l)
    ∧ (∀ l, dateStage now "all" l = l)
    ∧ (∀ l, searchStage "" l = l)
    ∧ filteredOrders now orders "all" "all" "all" "" = orders := by
  have hb : (bitsStage b orders).Sublist orders := bitsStage_sublist b orders
  have hsb : (statusStage s (bitsStage b orders)).Sublist orders :=
    (statusStage_sublist s _).trans hb
  refine ⟨?_, ?_, ?_, ?_, fun _ => rfl, fun _ => rfl, fun _ => rfl, fun _ => rfl, rfl⟩
  · show (filteredOrders now orders b s d q) ⊆ bitsStage b orders
    exact (((searchStage_sublist q _).trans (dateStage_sublist now d _)).trans
      (statusStage_sublist s _)).subset
  · show (filteredOrders now orders b s d q) ⊆ statusStage s orders
    exact (((searchStage_sublist q _).trans (dateStage_sublist now d _)).trans
      (statusStage_mono s hb)).subset
  · show (filteredOrders now orders b s d q) ⊆ dateStage now d orders
    exact ((searchStage_sublist q _).trans (dateStage_mono now d hsb)).subset
  · show (filteredOrders now orders b s d q) ⊆ searchStage q orders
    exact (searchStage_mono q ((dateStage_sublist now d _).trans hsb)).subset

lemma findIndex_cons (p : α → Bool) (x : α) (xs : List α) :
    findIndex p (x :: xs) = if p x then some 0 else (findIndex p xs).map (· + 1) := rfl

lemma itemMatch_iff (pid u : String) (it : OrderItem) :
    (it.productId == pid && it.unit == u) = true ↔ itemKey it = (pid, u) := by
  simp [itemKey, Prod.ext_iff]

lemma handleAddToOrder_cons (pid pn bn u : String) (q : Int) (nt : String)
    (x : OrderItem) (xs : List OrderItem) :
    handleAddToOrder pid pn bn u q nt (x :: xs) =
      if x.productId == pid && x.unit == u then
        { x with quantity := q, productNotes := nt } :: xs
      else x :: handleAddToOrder pid pn bn u q nt xs := by
  by_cases hx : (x.productId == pid && x.unit == u) = true
  · rw [if_pos hx]
    unfold handleAddToOrder
    rw [findIndex_cons, if_pos hx]
    rfl
  · rw [if_neg hx]
    unfold handleAddToOrder
    rw [findIndex_cons, if_neg hx]
    cases hfi : findIndex (fun item => item.productId == pid && item.unit == u) xs with
    | none => simp
    | some i => simp [updateAt]

lemma addOrder_map_key_of_present (pid pn bn u : String) (q : Int) (nt : String)
    (prev : List OrderItem) (hp : ∃ it ∈ prev, itemKey it = (pid, u)) :
    (handleAddToOrder pid pn bn u q nt prev).map itemKey = prev.map itemKey := by
  induction prev with
  | nil => simp at hp
  | cons x xs ih =>
    rw [handleAddToOrder_cons]
    by_cases hx : (x.productId == pid && x.unit == u) = true
    · rw [if_pos hx]
      simp [itemKey]
    · rw [if_neg hx]
      have hp' : ∃ it ∈ xs, itemKey it = (pid, u) := by
        rcases hp with ⟨it, hmem, hkey⟩
        rcases List.mem_cons.1 hmem with h | h
        · subst h
          exact absurd ((itemMatch_iff pid u it).2 hkey) hx
        · exact ⟨it, h, hkey⟩
      simp [ih hp']

lemma addOrder_of_absent (pid pn bn u : String) (q : Int) (nt : String)
    (prev : List OrderItem) (hp : ∀ it ∈ prev, itemKey it ≠ (pid, u)) :
    handleAddToOrder pid pn bn u q nt prev =
      prev ++ [{ productId := pid, productName := pn, brandName := bn, unit := u,
                 quantity := q, productNotes := nt }] := by
  induction prev with
  | nil => rfl
  | cons x xs ih =>
    rw [handleAddToOrder_cons]
    have hx : ¬(x.productId == pid && x.unit == u) = true := fun hc =>
      hp x (List.mem_cons_self x xs) ((itemMatch_iff pid u x).1 hc)
    rw [if_neg hx, ih (fun it hit => hp it (List.mem_cons_of_mem x hit))]
    rfl

lemma addOrder_exists_key (pid pn bn u : String) (q : Int) (nt : String)
    (prev : List OrderItem) :
    ∃ it ∈ handleAddToOrder pid pn bn u q nt prev, itemKey it = (pid, u) := by
  induction prev with
  | nil => exact ⟨_, List.mem_singleton_self _, rfl⟩
  | cons x xs ih =>
    rw [handleAddToOrder_cons]
    by_cases hx : (x.productId == pid && x.unit == u) = true
    · rw [if_pos hx]
      refine ⟨{ x with quantity := q, productNotes := nt }, List.mem_cons_self _ _, ?_⟩
      have := (itemMatch_iff pid u x).1 hx
      simpa [itemKey] using this
    · rw [if_neg hx]
      rcases ih with ⟨it, hmem, hkey⟩
      exact ⟨it, List.mem_cons_of_mem x hmem, hkey⟩

lemma addOrder_key_lookup (pid pn bn u : String) (q : Int) (nt : String)
    (prev : List OrderItem) (hnd : (prev.map itemKey).Nodup) :
    ∀ it ∈ handleAddToOrder pid pn bn u q nt prev, itemKey it = (pid, u) →
      it.quantity = q ∧ it.productNotes = nt := by
  induction prev with
  | nil =>
    intro it hit _
    rw [List.mem_singleton.1 hit]
    exact ⟨rfl, rfl⟩
  | cons x xs ih =>
    intro it hit hkey
    rw [handleAddToOrder_cons] at hit
    have hnd' : (xs.map itemKey).Nodup := (List.nodup_cons.1 (by simpa using hnd)).2
    by_cases hx : (x.productId == pid && x.unit == u) = true
    · rw [if_pos hx] at hit
      rcases List.mem_cons.1 hit with h | h
      · rw [h]
        exact ⟨rfl, rfl⟩
      · exfalso
        have hxk : itemKey x = (pid, u) := (itemMatch_iff pid u x).1 hx
        have hnotin : itemKey x ∉ xs.map itemKey := (List.nodup_cons.1 (by simpa using hnd)).1
        exact hnotin (by rw [hxk, ← hkey]; exact List.mem_map_of_mem itemKey h)
    · rw [if_neg hx] at hit
      rcases List.mem_cons.1 hit with h | h
      · exfalso
        rw [h] at hkey
        exact hx ((itemMatch_iff pid u x).2 hkey)
      · exact ih hnd' it h hkey

lemma addOrder_mem_of_ne (pid pn bn u : String) (q : Int) (nt : String)
    (prev : List OrderItem) :
    ∀ it ∈ handleAddToOrder pid pn bn u q nt prev, itemKey it ≠ (pid, u) → it ∈ prev := by
  induction prev with
  | nil =>
    intro it hit hne
    rw [List.mem_singleton.1 hit] at hne
    exact absurd rfl hne
  | cons x xs ih =>
    intro it hit hne
    rw [handleAddToOrder_cons] at hit
    by_cases hx : (x.productId == pid && x.unit == u) = true
    · rw [if_pos hx] at hit
      rcases List.mem_cons.1 hit with h | h
      · exfalso
        apply hne
        rw [h]
        have := (itemMatch_iff pid u x).1 hx
        simpa [itemKey] using this
      · exact List.mem_cons_of_mem x h
    · rw [if_neg hx] at hit
      rcases List.mem_cons.1 hit with h | h
      · rw [h]
        exact List.mem_cons_self x xs
      · exact List.mem_cons_of_mem x (ih it h hne)

lemma addOrder_nodup (pid pn bn u : String) (q : Int) (nt : String)
    (prev : List OrderItem) (hnd : (prev.map itemKey).Nodup) :
    ((handleAddToOrder pid pn bn u q nt prev).map itemKey).Nodup := by
  by_cases hp : ∃ it ∈ prev, itemKey it = (pid, u)
  · rw [addOrder_map_key_of_present pid pn bn u q nt prev hp]
    exact hnd
  · push_neg at hp
    rw [addOrder_of_absent pid pn bn u q nt prev hp]
    rw [List.map_append]
    rw [List.nodup_append]
    refine ⟨hnd, List.nodup_singleton _, ?_⟩
    intro k hk hk'
    simp [itemKey] at hk'
    rcases List.mem_map.1 hk with ⟨it, hit, hkey⟩
    exact hp it hit (by rw [hkey, hk'])

/-- Claim C4: adding a product whose `(productId, unit)` pair is present
overwrites that item's quantity and notes without adding an entry, so a
pair-unique item list stays pair-unique; a pair not present appends exactly
one new item. -/
theorem c4_item_upsert (productId productName brandName unit : String)
    (quantity : Int) (productNotes : String) (prev : List OrderItem)
    (hnd : (prev.map itemKey).Nodup) :
    ((∃ it ∈ prev, itemKey it = (productId, unit)) →
      (handleAddToOrder productId productName brandName unit quantity productNotes prev).length
          = prev.length ∧
      (handleAddToOrder productId productName brandName unit quantity productNotes prev).map itemKey
          = prev.map itemKey)
    ∧ ((∀ it ∈ prev, itemKey it ≠ (productId, unit)) →
      handleAddToOrder productId productName brandName unit quantity productNotes prev =
        prev ++ [{ productId := productId, productName := productName, brandName := brandName,
                   unit := unit, quantity := quantity, productNotes := productNotes }])
    ∧ ((handleAddToOrder productId productName brandName unit quantity productNotes prev).map
        itemKey).Nodup
    ∧ (∃ it ∈ handleAddToOrder productId productName brandName unit quantity productNotes prev,
        itemKey it = (productId, unit))
    ∧ (∀ it ∈ handleAddToOrder productId productName brandName unit quantity productNotes prev,
        itemKey it = (productId, unit) → it.quantity = quantity ∧ it.productNotes = productNotes)
    ∧ (∀ it ∈ handleAddToOrder productId productName brandName unit quantity productNotes prev,
        itemKey it ≠ (productId, unit) → it ∈ prev) := by
  refine ⟨fun hp => ⟨?_, addOrder_map_key_of_present _ _ _ _ _ _ _ hp⟩,
    addOrder_of_absent _ _ _ _ _ _ _,
    addOrder_nodup _ _ _ _ _ _ _ hnd,
    addOrder_exists_key _ _ _ _ _ _ _,
    addOrder_key_lookup _ _ _ _ _ _ _ hnd,
    addOrder_mem_of_ne _ _ _ _ _ _ _⟩
  have hkeys := addOrder_map_key_of_present productId productName brandName unit
    quantity productNotes prev hp
  have := congrArg List.length hkeys
  simpa using this

/-- Witness for C4: re-adding the `(P1, Pc)` pair to the example list keeps
its length. -/
theorem c4_item_upsert_witness :
    (handleAddToOrder "P1" "Glucose Biscuits" "B1" "Pc" 5 "" exampleItems).length
      = exampleItems.length :=
  ((c4_item_upsert "P1" "Glucose Biscuits" "B1" "Pc" 5 "" exampleItems
    (by decide)).1 (by decide)).1

lemma mem_insertOrd (le : α → α → Bool) (x a : α) (l : List α) :
    a ∈ insertOrd le x l ↔ a = x ∨ a ∈ l := by
  induction l with
  | nil => simp [insertOrd]
  | cons y ys ih =>
    unfold insertOrd
    split
    · simp [List.mem_cons]
    · simp [List.mem_cons, ih]
      tauto

lemma insertOrd_perm (le : α → α → Bool) (x : α) (l : List α) :
    (insertOrd le x l).Perm (x :: l) := by
  induction l with
  | nil => exact List.Perm.refl _
  | cons y ys ih =>
    unfold insertOrd
    split
    · exact List.Perm.refl _
    · exact (ih.cons y).trans (List.Perm.swap x y ys)

lemma sortOrd_perm (le : α → α → Bool) (l : List α) : (sortOrd le l).Perm l := by
  induction l with
  | nil => exact List.Perm.refl _
  | cons x xs ih => exact (insertOrd_perm le x _).trans (ih.cons x)

lemma insertOrd_pairwise (le : α → α → Bool) (x : α) (l : List α)
    (hl : l.Pairwise (fun a b => le a b = true))
    (htot : ∀ y ∈ l, le x y = true ∨ le y x = true)
    (htr : ∀ y ∈ l, ∀ z ∈ l, le x y = true → le y z = true → le x z = true) :
    (insertOrd le x l).Pairwise (fun a b => le a b = true) := by
  induction l with
  | nil => simp [insertOrd]
  | cons y ys ih =>
    rw [List.pairwise_cons] at hl
    obtain ⟨hy, hys⟩ := hl
    unfold insertOrd
    by_cases hxy : le x y = true
    · rw [if_pos hxy, List.pairwise_cons]
      refine ⟨?_, List.pairwise_cons.2 ⟨hy, hys⟩⟩
      intro z hz
      rcases List.mem_cons.1 hz with h | h
      · rw [h]
        exact hxy
      · exact htr y (List.mem_cons_self y ys) z (List.mem_cons_of_mem y h) hxy (hy z h)
    · rw [if_neg hxy, List.pairwise_cons]
      constructor
      · intro z hz
        rcases (mem_insertOrd le x z ys).1 hz with h | h
        · rw [h]
          exact (htot y (List.mem_cons_self y ys)).resolve_left hxy
        · exact hy z h
      · exact ih hys (fun z hz => htot z (List.mem_cons_of_mem y hz))
          (fun a ha b hb => htr a (List.mem_cons_of_mem y ha) b (List.mem_cons_of_mem y hb))

lemma sortOrd_pairwise (le : α → α → Bool) (l : List α)
    (htot : ∀ a ∈ l, ∀ b ∈ l, le a b = true ∨ le b a = true)
    (htr : ∀ a ∈ l, ∀ b ∈ l, ∀ c ∈ l, le a b = true → le b c = true → le a c = true) :
    (sortOrd le l).Pairwise (fun a b => le a b = true) := by
  induction l with
  | nil => simp [sortOrd]
  | cons x xs ih =>
    have hmem : ∀ y ∈ sortOrd le xs, y ∈ xs :=
      fun y hy => (sortOrd_perm le xs).mem_iff.1 hy
    unfold sortOrd
    apply insertOrd_pairwise
    · exact ih
        (fun a ha b hb => htot a (List.mem_cons_of_mem x ha) b (List.mem_cons_of_mem x hb))
        (fun a ha b hb c hc => htr a (List.mem_cons_of_mem x ha) b (List.mem_cons_of_mem x hb)
          c (List.mem_cons_of_mem x hc))
    · intro y hy
      exact htot x (List.mem_cons_self x xs) y (List.mem_cons_of_mem x (hmem y hy))
    · intro y hy z hz
      exact htr x (List.mem_cons_self x xs) y (List.mem_cons_of_mem x (hmem y hy))
        z (List.mem_cons_of_mem x (hmem z hz))

lemma recentLe_total (a b : Order) : recentLe a b = true ∨ recentLe b a = true := by
  unfold recentLe
  cases orderSortKey a with
  | none => cases orderSortKey b <;> simp
  | some ka =>
    cases orderSortKey b with
    | none => simp
    | some kb => simpa using le_total kb ka

lemma recentLe_trans {a b c : Order} (ha : (orderSortKey a).isSome)
    (hb : (orderSortKey b).isSome) (hc : (orderSortKey c).isSome) :
    recentLe a b = true → recentLe b c = true → recentLe a c = true := by
  obtain ⟨ka, hka⟩ := Option.isSome_iff_exists.1 ha
  obtain ⟨kb, hkb⟩ := Option.isSome_iff_exists.1 hb
  obtain ⟨kc, hkc⟩ := Option.isSome_iff_exists.1 hc
  unfold recentLe
  rw [hka, hkb, hkc]
  intro h1 h2
  simp only [decide_eq_true_eq] at h1 h2 ⊢
  omega

lemma recentLe_keyD {a b : Order} (ha : (orderSortKey a).isSome)
    (hb : (orderSortKey b).isSome) (h : recentLe a b = true) :
    orderSortKeyD b ≤ orderSortKeyD a := by
  obtain ⟨ka, hka⟩ := Option.isSome_iff_exists.1 ha
  obtain ⟨kb, hkb⟩ := Option.isSome_iff_exists.1 hb
  unfold recentLe at h
  rw [hka, hkb] at h
  unfold orderSortKeyD
  rw [hka, hkb]
  simpa using h

/-- Claim C9: the dashboard's recent list is the three newest orders by
combined date+time, sorted newest first: it has `min 3 n` elements,
splitting the sorted array at 3 recovers a permutation of the input, the
rendered slice is sorted descending by key, and every rendered order's key
is at least every dropped order's key. -/
theorem c9_dashboard_recent (os : List Order)
    (hk : ∀ o ∈ os, (orderSortKey o).isSome) :
    (recentOrders os).length = min 3 os.length
    ∧ (recentOrders os ++ (sortOrd recentLe os).drop 3).Perm os
    ∧ (recentOrders os).Pairwise (fun a b => orderSortKeyD b ≤ orderSortKeyD a)
    ∧ ∀ a ∈ recentOrders os, ∀ b ∈ (sortOrd recentLe os).drop 3,
        orderSortKeyD b ≤ orderSortKeyD a := by
  have hperm : (sortOrd recentLe os).Perm os := sortOrd_perm _ _
  have hsome : ∀ a ∈ sortOrd recentLe os, (orderSortKey a).isSome :=
    fun a ha => hk a (hperm.mem_iff.1 ha)
  have hpair : (sortOrd recentLe os).Pairwise (fun a b => recentLe a b = true) :=
    sortOrd_pairwise recentLe os (fun a _ b _ => recentLe_total a b)
      (fun a ha b hb c hc => recentLe_trans (hk a ha) (hk b hb) (hk c hc))
  have hpairKey : (sortOrd recentLe os).Pairwise
      (fun a b => orderSortKeyD b ≤ orderSortKeyD a) :=
    hpair.imp_of_mem (fun hma hmb h => recentLe_keyD (hsome _ hma) (hsome _ hmb) h)
  refine ⟨?_, ?_, ?_, ?_⟩
  · rw [recentOrders, List.length_take, hperm.length_eq]
  · rw [recentOrders, List.take_append_drop]
    exact hperm
  · exact hpairKey.sublist (List.take_sublist 3 _)
  · have h := hpairKey
    rw [← List.take_append_drop 3 (sortOrd recentLe os)] at h
    exact (List.pairwise_append.1 h).2.2

/-- Witness for C9: on a concrete four-order array the rendered list has
exactly three elements. -/
theorem c9_dashboard_recent_witness :
    (recentOrders [oPendingJan2, oCompletedJan3, oCompletedJan1, oSundayJan5]).length =
      min 3 [oPendingJan2, oCompletedJan3, oCompletedJan1, oSundayJan5].length :=
  (c9_dashboard_recent [oPendingJan2, oCompletedJan3, oCompletedJan1, oSundayJan5]
    (by decide)).1

/-- Claim C7 (amended): the orders-list filtering derivation leaves its
input array untouched and returns an order-preserving sublist; the
dashboard recent-orders derivation returns a fresh 3-element slice, but
`Array.prototype.sort` reorders the input array in place, leaving it in
key-descending order (a permutation of, not equal to, the original). -/
theorem c7_derivation_frame (now : LocalNow) (orders : List Order) (b s d q : String) :
    ordersAfterFiltered orders = orders
    ∧ (filteredOrders now orders b s d q).Sublist orders
    ∧ ordersAfterRecent orders = sortOrd recentLe orders
    ∧ (ordersAfterRecent orders).Perm orders
    ∧ recentOrders orders = (ordersAfterRecent orders).take 3 :=
  ⟨rfl,
   ((searchStage_sublist q _).trans (dateStage_sublist now d _)).trans
     ((statusStage_sublist s _).trans (bitsStage_sublist b _)),
   rfl, sortOrd_perm _ _, rfl⟩

/-- Counterexample for C7 as stated: after the dashboard derivation runs on
a two-order array whose first element is older, the input array's contents
are reordered, so the derivation does not leave the input unchanged. -/
theorem c7_derivation_frame_counterexample :
    ordersAfterRecent [oPendingJan2, oCompletedJan3] = [oCompletedJan3, oPendingJan2]
    ∧ ordersAfterRecent [oPendingJan2, oCompletedJan3] ≠ [oPendingJan2, oCompletedJan3] := by
  exact ⟨by decide, by decide⟩

/-- Counterexample for C6 as stated: at Wednesday 8 January 2025, 01:00, the
order dated Sunday 5 January 2025 — exactly the start of the current
calendar week — is rejected by the "week" bucket, because `startOfWeek`
keeps the current clock time instead of midnight; at exactly midnight the
same order passes.  The final conjunct negates the claimed
"admitted iff order date ≥ start of current calendar week" equivalence at
this input. -/
theorem c6_week_filter_divergence :
    dateFilterPred wJanNow "week" oSundayJan5 = false
    ∧ parseDateRev oSundayJan5.date = some (todayDayNum wJanNow - nowDayOfWeek wJanNow)
    ∧ dateFilterPred { wJanNow with tod := 0 } "week" oSundayJan5 = true
    ∧ ¬(dateFilterPred wJanNow "week" oSundayJan5 = true ↔
        todayDayNum wJanNow - nowDayOfWeek wJanNow ≤
          todayDayNum wJanNow - nowDayOfWeek wJanNow) := by
  exact ⟨by decide, by decide, by decide, by decide⟩

/-- Claim C6 (amended): for a parseable order date, "today" admits iff the
parsed date is at or after the current day, "month" iff at or after the
first of the current month; "week" compares against the week-start day
combined with the current time-of-day, so at exactly midnight it admits iff
the date is at or after the week's day 0, and at any later clock time iff
the date is strictly after the week's day 0. -/
theorem c6_date_bucket_semantics (now : LocalNow)
    (h0 : 0 ≤ now.tod) (h1 : now.tod < msPerDay)
    (o : Order) (z : Int) (hp : parseDateRev o.date = some z) :
    (dateFilterPred now "today" o = true ↔ todayDayNum now ≤ z)
    ∧ (dateFilterPred now "month" o = true ↔ makeDay now.year (now.month - 1) 1 ≤ z)
    ∧ (now.tod = 0 →
        (dateFilterPred now "week" o = true ↔ todayDayNum now - nowDayOfWeek now ≤ z))
    ∧ (0 < now.tod →
        (dateFilterPred now "week" o = true ↔ todayDayNum now - nowDayOfWeek now < z)) := by
  have hwt : ("week" == "today") = false := by decide
  have hmt : ("month" == "today") = false := by decide
  have hmw : ("month" == "week") = false := by decide
  have hD : msPerDay = 86400000 := rfl
  rw [hD] at h1
  refine ⟨?_, ?_, ?_, ?_⟩
  · simp only [dateFilterPred, beq_self_eq_true, if_true, hp, decide_eq_true_eq]
    unfold startOfTodayMs
    rw [hD]
    omega
  · simp only [dateFilterPred, hmt, hmw, beq_self_eq_true, Bool.false_eq_true, if_false,
      if_true, hp, decide_eq_true_eq]
    unfold startOfMonthMs
    rw [hD]
    omega
  · intro ht0
    simp only [dateFilterPred, hwt, beq_self_eq_true, Bool.false_eq_true, if_false, if_true,
      hp, decide_eq_true_eq]
    unfold startOfWeekMs
    rw [hD, ht0]
    omega
  · intro htpos
    simp only [dateFilterPred, hwt, beq_self_eq_true, Bool.false_eq_true, if_false, if_true,
      hp, decide_eq_true_eq]
    unfold startOfWeekMs
    rw [hD]
    omega

/-- Witness for the amended C6: the "today" bucket at the concrete January
instant admits the Sunday order iff its day is at or after the current day. -/
theorem c6_date_bucket_semantics_witness :
    dateFilterPred wJanNow "today" oSundayJan5 = true ↔ todayDayNum wJanNow ≤ 20093 :=
  (c6_date_bucket_semantics wJanNow (by decide) (by decide) oSundayJan5 20093 (by decide)).1
